import Mathlib

/-!
Verification development for the Password Strength Checker CLI
(`password-checker_v1.0.py` and `password-checker_v2.0.py`).

Strings are modelled as `List Char` (Python strings are sequences of
Unicode code points).  The regex character classes used by the scripts
(`[A-Z]`, `[a-z]`, `[0-9]`, `[@$!%*?&]`) are modelled as membership
tests over those exact code-point ranges / sets.  Interactive behaviour
is modelled as a small-step state machine consuming a finite list of
user inputs (one list entry per line the user types) and producing a
trace of observable events (blocking reasons shown, score/rating lines
shown, log entries appended).  Interrupt/EOF signals and the cosmetic
spinner are not modelled: no claim depends on them.
-/

namespace PasswordChecker

/-- Python strings, as lists of code points. -/
abbrev Str := List Char

/-- `re.search(r"[A-Z]", password)` succeeds: some ASCII uppercase letter. -/
def hasUpper (p : Str) : Bool := p.any fun c => 'A' ≤ c && c ≤ 'Z'

/-- `re.search(r"[a-z]", password)` succeeds: some ASCII lowercase letter. -/
def hasLower (p : Str) : Bool := p.any fun c => 'a' ≤ c && c ≤ 'z'

/-- `re.search(r"[0-9]", password)` succeeds: some ASCII digit. -/
def hasDigit (p : Str) : Bool := p.any fun c => '0' ≤ c && c ≤ '9'

/-- The default symbol class `[@$!%*?&]` of both scripts. -/
def symbolChars : Str := ['@', '$', '!', '%', '*', '?', '&']

/-- `re.search(symbols_pat, password)` for a character-class pattern:
some character of the class occurs in the string. -/
def hasAnyOf (symbols : Str) (p : Str) : Bool := p.any fun c => symbols.contains c

/-- `hasAnyOf symbolChars`, the `re.search(r"[@$!%*?&]", password)` test. -/
def hasSymbol (p : Str) : Bool := hasAnyOf symbolChars p

/-- `score_password` from `password-checker_v2.0.py` lines 36-44:
sequentially adds one point for each satisfied predicate. -/
def score_password (password : Str) (min_len : Nat := 8)
    (symbols : Str := symbolChars) : Nat :=
  let score := 0
  let score := if min_len ≤ password.length then score + 1 else score
  let score := if hasUpper password then score + 1 else score
  let score := if hasLower password then score + 1 else score
  let score := if hasDigit password then score + 1 else score
  let score := if hasAnyOf symbols password then score + 1 else score
  score

/-- `rating_from_score` from `password-checker_v2.0.py` lines 47-51.
Python ints are unbounded signed integers, so the domain is `Int`. -/
def rating_from_score (score : Int) : String :=
  if score = 5 then "Strong"
  else if 3 ≤ score then "Medium"
  else "Weak"

/-- The inline score computation of `password-checker_v1.0.py`
(lines 96-106 on the success path and the identical lines 135-145 on
the failure path): literal minimum length 8 and literal symbol class. -/
def scoreV1 (password : Str) : Nat :=
  let score := 0
  let score := if 8 ≤ password.length then score + 1 else score
  let score := if hasUpper password then score + 1 else score
  let score := if hasLower password then score + 1 else score
  let score := if hasDigit password then score + 1 else score
  let score := if hasSymbol password then score + 1 else score
  score

/-- The inline rating chain v1.0 uses when *displaying* the score
(lines 109-114 and 148-153): `score < 3` → Weak, `score in (3, 4)` →
Medium, otherwise Strong. -/
def ratingDisplayV1 (score : Nat) : String :=
  if score < 3 then "Weak"
  else if score = 3 ∨ score = 4 then "Medium"
  else "Strong"

/-- The inline conditional expression v1.0 writes into the *log*
(lines 125-126 and 171-172):
`'Strong' if score == 5 else ('Medium' if score >= 3 else 'Weak')`. -/
def ratingLogV1 (score : Nat) : String :=
  if score = 5 then "Strong"
  else if 3 ≤ score then "Medium"
  else "Weak"

/-- The five blocking reasons the step-by-step feedback can report
(v2.0 lines 138-147, v1.0 lines 84-93), in their priority order. -/
inductive Reason where
  | tooShort
  | noUpper
  | noLower
  | noDigit
  | noSymbol
deriving DecidableEq, Repr

/-- The `if len(password) < 8: ... elif ... elif ...` chain of
`run_password_check` (v2.0 lines 138-147; identical in v1.0 lines
84-93): `none` means every check passed (the `else` success branch),
`some r` means `r` is the reason whose message is printed. -/
def firstUnmet (p : Str) : Option Reason :=
  if p.length < 8 then some .tooShort
  else if !hasUpper p then some .noUpper
  else if !hasLower p then some .noLower
  else if !hasDigit p then some .noDigit
  else if !hasSymbol p then some .noSymbol
  else none

/-- Whether a single rule holds for `p` (the positive form of each
check in the feedback chain). -/
def ruleHolds (r : Reason) (p : Str) : Bool :=
  match r with
  | .tooShort => 8 ≤ p.length
  | .noUpper => hasUpper p
  | .noLower => hasLower p
  | .noDigit => hasDigit p
  | .noSymbol => hasSymbol p

/-- The fixed priority order of the five rules. -/
def ruleOrder : List Reason :=
  [.tooShort, .noUpper, .noLower, .noDigit, .noSymbol]

/-- Python `str.isspace()`-style whitespace as far as ASCII reaches
(space, tab, newline, carriage return, vertical tab, form feed);
used to model `str.strip()` on the inputs that occur here. -/
def isPySpace (c : Char) : Bool :=
  c = ' ' || c = '\t' || c = '\n' || c = '\r' || c = '\x0b' || c = '\x0c'

/-- Python `s.strip()`: drop leading and trailing whitespace. -/
def pyStrip (s : Str) : Str :=
  ((s.dropWhile isPySpace).reverse.dropWhile isPySpace).reverse

/-- Python `s.lower()` restricted to ASCII letters (all inputs the
scripts compare against are ASCII). -/
def pyLower (s : Str) : Str :=
  s.map fun c => if 'A' ≤ c && c ≤ 'Z' then Char.ofNat (c.toNat + 32) else c

/-- `if not password.strip():` — the blank-input guard (v2.0 line 129,
v1.0 line 59): true iff the input is empty or whitespace-only. -/
def isBlank (p : Str) : Bool := pyStrip p = ([] : Str)

/-- `(ans or "").strip().lower()` — normalisation applied to a yes/no
answer (v2.0 line 97; v1.0 line 158 does `.strip().lower()` directly). -/
def normalizeAns (a : Str) : Str := pyLower (pyStrip a)

/-- Membership in `valid_yes = {"y", "yes"}` after normalisation. -/
def isYesAns (a : Str) : Bool :=
  normalizeAns a = ['y'] || normalizeAns a = ['y', 'e', 's']

/-- Membership in `valid_no = {"n", "no"}` after normalisation. -/
def isNoAns (a : Str) : Bool :=
  normalizeAns a = ['n'] || normalizeAns a = ['n', 'o']

/-- `ask_yes_no` from v2.0 lines 86-100, on a finite stream of
answers: consume answers until one is valid, returning the boolean it
maps to together with the unconsumed remainder of the stream; `none`
when the stream is exhausted before a valid answer arrives. -/
def askYesNo : List Str → Option (Bool × List Str)
  | [] => none
  | a :: rest =>
    if isYesAns a then some (true, rest)
    else if isNoAns a then some (false, rest)
    else askYesNo rest

/-- Observable events of one run, at the granularity the specification
talks about: a blocking reason reported, a score/rating line displayed,
a log line appended.  Cosmetic messages (banner, spinner, prompts,
"Hurray", "All done") carry no data beyond these and are not modelled. -/
inductive Event where
  | reasonShown (r : Reason)
  | scoreShown (score : Nat) (rating : String)
  | logged (attempts : Nat) (score : Nat) (rating : String)
deriving DecidableEq, Repr

/-- How one session (one run of the inner loop) ends. -/
inductive Outcome where
  | success
  | declined
  | outOfInput
deriving DecidableEq, Repr

/-- Control state of the v2.0 inner loop between two reads:
either the next read is a password, or the last attempt failed with
the recorded score and rating and the next read answers the retry
question. -/
inductive SMode2 where
  | pw
  | retry (score : Nat) (rating : String)
deriving DecidableEq, Repr

/-- `run_password_check` from v2.0 lines 122-170 as a step function on
the input stream.  Each list entry is one line the user types.  Blank
passwords re-prompt without counting (line 129-131); a failing attempt
prints its reason and its score line, then `ask_yes_no` governs retry:
"no" logs the failing attempt and returns, "yes" loops.  A passing
attempt prints its score line, logs, and breaks.  Returns the events,
the outcome, and the unconsumed input. -/
def sessionV2 (mode : SMode2) (attempts : Nat) :
    List Str → List Event × Outcome × List Str
  | [] => ([], .outOfInput, [])
  | x :: rest =>
    match mode with
    | .pw =>
      if isBlank x then sessionV2 .pw attempts rest
      else
        let attempts' := attempts + 1
        match firstUnmet x with
        | none =>
          let score := score_password x
          let rating := rating_from_score score
          ([.scoreShown score rating, .logged attempts' score rating],
            .success, rest)
        | some r =>
          let score := score_password x
          let rating := rating_from_score score
          let (evs, out, rem) := sessionV2 (.retry score rating) attempts' rest
          (.reasonShown r :: .scoreShown score rating :: evs, out, rem)
    | .retry score rating =>
      if isYesAns x then sessionV2 .pw attempts rest
      else if isNoAns x then
        ([.logged attempts score rating], .declined, rest)
      else sessionV2 (.retry score rating) attempts rest

/-- Control state of the v1.0 loop: v1.0 keeps only the integer
`score` variable across the retry prompt (the rating strings are
recomputed inline where they are printed or logged). -/
inductive SMode1 where
  | pw
  | retry (score : Nat)
deriving DecidableEq, Repr

/-- The v1.0 module-level loop (lines 41-175) as a step function on
the input stream, same conventions as `sessionV2`.  The failing branch
recomputes the score inline (lines 135-145), displays the rating via
the `score < 3 / score in (3,4) / else` chain (lines 148-153), and on
"no" logs with the inline conditional-expression rating (lines
170-172) before `SystemExit(0)`.  The success branch scores inline
(lines 96-106), displays, then logs (lines 124-126) and breaks. -/
def sessionV1 (mode : SMode1) (attempts : Nat) :
    List Str → List Event × Outcome × List Str
  | [] => ([], .outOfInput, [])
  | x :: rest =>
    match mode with
    | .pw =>
      if isBlank x then sessionV1 .pw attempts rest
      else
        let attempts' := attempts + 1
        match firstUnmet x with
        | none =>
          let score := scoreV1 x
          ([.scoreShown score (ratingDisplayV1 score),
            .logged attempts' score (ratingLogV1 score)], .success, rest)
        | some r =>
          let score := scoreV1 x
          let (evs, out, rem) := sessionV1 (.retry score) attempts' rest
          (.reasonShown r :: .scoreShown score (ratingDisplayV1 score) :: evs,
            out, rem)
    | .retry score =>
      if isYesAns x then sessionV1 .pw attempts rest
      else if isNoAns x then
        ([.logged attempts score (ratingLogV1 score)], .declined, rest)
      else sessionV1 (.retry score) attempts rest

/-- The whole v1.0 program is a single session: after the success
`break` the module ends, and the "no" branch raises `SystemExit(0)`.
Its observable trace is the session's trace. -/
def progV1 (inputs : List Str) : List Event :=
  (sessionV1 .pw 0 inputs).1

/-- Control state of the whole v2.0 program: the inner-loop states
plus the outer `main` loop's "check another password?" question
(v2.0 lines 180-188). -/
inductive PMode2 where
  | pw
  | retry (score : Nat) (rating : String)
  | another
deriving DecidableEq, Repr

/-- `main` of v2.0 (lines 175-188) as a step function: run sessions,
and after each finished session (success or declined retry) ask
whether to check another password; "yes" starts a fresh session with
the attempt counter reset, "no" ends the program. -/
def progV2run (mode : PMode2) (attempts : Nat) : List Str → List Event
  | [] => []
  | x :: rest =>
    match mode with
    | .pw =>
      if isBlank x then progV2run .pw attempts rest
      else
        let attempts' := attempts + 1
        match firstUnmet x with
        | none =>
          let score := score_password x
          let rating := rating_from_score score
          .scoreShown score rating :: .logged attempts' score rating ::
            progV2run .another attempts' rest
        | some r =>
          let score := score_password x
          let rating := rating_from_score score
          .reasonShown r :: .scoreShown score rating ::
            progV2run (.retry score rating) attempts' rest
    | .retry score rating =>
      if isYesAns x then progV2run .pw attempts rest
      else if isNoAns x then
        .logged attempts score rating :: progV2run .another attempts rest
      else progV2run (.retry score rating) attempts rest
    | .another =>
      if isYesAns x then progV2run .pw 0 rest
      else if isNoAns x then []
      else progV2run .another attempts rest

/-- The whole v2.0 program's observable trace. -/
def progV2 (inputs : List Str) : List Event :=
  progV2run .pw 0 inputs

/-- The log line `log_attempt` appends (v2.0 line 63; v1.0 lines
125-126 and 171-172 write the same shape): built from the timestamp,
the attempt count, the score and the rating only. -/
def logLine (timestamp : String) (attempts : Nat) (score : Nat)
    (rating : String) : String :=
  timestamp ++ " | attempts=" ++ toString attempts ++ " | score=" ++
    toString score ++ "/5 | rating=" ++ rating ++ "\n"

/-- The log line produced for a given password on a completed attempt:
the password enters only through its score (and the rating derived
from that score). -/
def logLineFor (timestamp : String) (attempts : Nat) (p : Str) : String :=
  logLine timestamp attempts (score_password p)
    (rating_from_score (score_password p))

/-- Helper: a normalised "no" answer is never also a "yes" answer
(the two valid-answer sets are disjoint). -/
theorem isNoAns_not_yes (a : Str) (h : isNoAns a = true) : isYesAns a = false := by
  simp only [isNoAns, Bool.or_eq_true, decide_eq_true_eq] at h
  rcases h with h | h <;> (unfold isYesAns; rw [h]; decide)

/-- Helper: `scoreV1` is the same function as `score_password` at its
default arguments. -/
theorem scoreV1_eq (p : Str) : scoreV1 p = score_password p := rfl

/-- Helper: the score never exceeds 5. -/
theorem score_password_le (p : Str) : score_password p ≤ 5 := by
  simp only [score_password]
  split_ifs <;> omega

/-- Helper: v1.0's inline log-rating expression agrees with
`rating_from_score` on every natural score. -/
theorem ratingLogV1_eq (s : Nat) : ratingLogV1 s = rating_from_score s := by
  unfold ratingLogV1 rating_from_score
  split_ifs <;> first | rfl | omega

/-- Helper: v1.0's inline display-rating chain agrees with
`rating_from_score` on scores in range (they differ only above 5,
which no password can reach). -/
theorem ratingDisplayV1_eq (s : Nat) (h : s ≤ 5) :
    ratingDisplayV1 s = rating_from_score s := by
  unfold ratingDisplayV1 rating_from_score
  split_ifs <;> first | rfl | omega

/-- C1: `score_password` with default arguments is a total function
(hence deterministic and exception-free in the model) whose value is
the sum of the five independent boolean predicates — length ≥ 8,
has uppercase, has lowercase, has digit, has a symbol of
`[@$!%*?&]` — so it always lies in [0,5]; the empty string scores 0. -/
theorem score_password_spec :
    (∀ p : Str,
      score_password p =
        (if 8 ≤ p.length then 1 else 0) + (if hasUpper p then 1 else 0) +
        (if hasLower p then 1 else 0) + (if hasDigit p then 1 else 0) +
        (if hasSymbol p then 1 else 0) ∧
      score_password p ≤ 5) ∧
    score_password [] = 0 := by
  refine ⟨fun p => ?_, rfl⟩
  constructor
  · simp only [score_password, hasSymbol]
    split_ifs <;> rfl
  · simp only [score_password, hasSymbol]
    split_ifs <;> omega

/-- C2: on the reachable score range [0,5], `rating_from_score`
returns "Strong" exactly at 5, "Medium" exactly at 3 and 4, and
"Weak" exactly at 0, 1 and 2 — so the three cases are exhaustive. -/
theorem rating_cases (s : Int) (h0 : 0 ≤ s) (h5 : s ≤ 5) :
    (rating_from_score s = "Strong" ↔ s = 5) ∧
    (rating_from_score s = "Medium" ↔ s = 3 ∨ s = 4) ∧
    (rating_from_score s = "Weak" ↔ s = 0 ∨ s = 1 ∨ s = 2) := by
  interval_cases s <;> refine ⟨?_, ?_, ?_⟩ <;> simp [rating_from_score]

/-- Witness for C2 at the concrete score 4. -/
theorem rating_cases_witness : rating_from_score 4 = "Medium" :=
  ((rating_cases 4 (by decide) (by decide)).2.1).mpr (Or.inr rfl)

/-- C10: `rating_from_score` is total over all integers: "Strong"
exactly at 5, "Medium" at every other integer ≥ 3 (including ≥ 6),
and "Weak" at every integer < 3 (including negatives). -/
theorem rating_total (n : Int) :
    (rating_from_score n = "Strong" ↔ n = 5) ∧
    (rating_from_score n = "Medium" ↔ 3 ≤ n ∧ n ≠ 5) ∧
    (rating_from_score n = "Weak" ↔ n < 3) := by
  unfold rating_from_score
  split_ifs with h1 h2 <;> refine ⟨?_, ?_, ?_⟩ <;>
    simp_all

/-- C3: the feedback chain reports exactly the first unmet predicate
in the fixed priority order length, uppercase, lowercase, digit,
symbol (it equals `List.find?` of the unmet rules over that order);
in particular "lowercase!" — which misses both uppercase and digit —
is blocked for the missing uppercase letter. -/
theorem firstUnmet_first_in_order :
    (∀ p : Str, firstUnmet p = ruleOrder.find? fun r => !ruleHolds r p) ∧
    firstUnmet "lowercase!".toList = some .noUpper := by
  refine ⟨fun p => ?_, by decide⟩
  by_cases h8 : 8 ≤ p.length
  · have h8' : ¬p.length < 8 := by omega
    have e1 : decide (8 ≤ p.length) = true := decide_eq_true h8
    have e2 : decide (p.length < 8) = false := decide_eq_false h8'
    cases hU : hasUpper p <;> cases hL : hasLower p <;>
      cases hD : hasDigit p <;> cases hS : hasSymbol p <;>
      simp_all [firstUnmet, ruleOrder, ruleHolds, List.find?]
  · have h8' : p.length < 8 := by omega
    have e1 : decide (8 ≤ p.length) = false := decide_eq_false h8
    have e2 : decide (p.length < 8) = true := decide_eq_true h8'
    cases hU : hasUpper p <;> cases hL : hasLower p <;>
      cases hD : hasDigit p <;> cases hS : hasSymbol p <;>
      simp_all [firstUnmet, ruleOrder, ruleHolds, List.find?] <;>
      rw [decide_eq_false (show ¬8 ≤ p.length by omega)] <;> rfl

/-- C4: a submitted password takes the success branch exactly when
every predicate holds, i.e. exactly when its score is 5; and the two
end-to-end examples: "Str0ng!Pass" succeeds with score 5/5 "Strong"
and one log line, while "short1" is blocked as too short with score
2/5 "Weak", and declining the retry logs that failing attempt. -/
theorem success_iff_score_five :
    (∀ p : Str, firstUnmet p = none ↔ score_password p = 5) ∧
    sessionV2 .pw 0 ["Str0ng!Pass".toList] =
      ([.scoreShown 5 "Strong", .logged 1 5 "Strong"], .success, []) ∧
    sessionV2 .pw 0 ["short1".toList, "n".toList] =
      ([.reasonShown .tooShort, .scoreShown 2 "Weak", .logged 1 2 "Weak"],
        .declined, []) := by
  refine ⟨fun p => ?_, by decide, by decide⟩
  by_cases h8 : 8 ≤ p.length
  · have h8' : ¬p.length < 8 := by omega
    have e1 : decide (8 ≤ p.length) = true := decide_eq_true h8
    have e2 : decide (p.length < 8) = false := decide_eq_false h8'
    cases hU : hasUpper p <;> cases hL : hasLower p <;>
      cases hD : hasDigit p <;> cases hS : hasAnyOf symbolChars p <;>
      simp_all [firstUnmet, score_password, hasSymbol] <;> split_ifs <;>
      first | omega | trivial
  · have h8' : p.length < 8 := by omega
    have e1 : decide (8 ≤ p.length) = false := decide_eq_false h8
    have e2 : decide (p.length < 8) = true := decide_eq_true h8'
    cases hU : hasUpper p <;> cases hL : hasLower p <;>
      cases hD : hasDigit p <;> cases hS : hasAnyOf symbolChars p <;>
      simp_all [firstUnmet, score_password, hasSymbol] <;> split_ifs <;>
      first | omega | trivial

/-- C6: the log line has the documented `timestamp | attempts=n |
score=s/5 | rating=r` shape, and it depends on the password only
through its score (and derived rating): two passwords with equal
scores yield identical log lines for the same timestamp and attempt
count — the password itself is never written. -/
theorem log_password_free :
    logLine "2025-10-16T12:00:00" 1 5 "Strong" =
      "2025-10-16T12:00:00 | attempts=1 | score=5/5 | rating=Strong\n" ∧
    ∀ (ts : String) (n : Nat) (p1 p2 : Str),
      score_password p1 = score_password p2 →
      logLineFor ts n p1 = logLineFor ts n p2 := by
  refine ⟨rfl, fun ts n p1 p2 h => ?_⟩
  simp [logLineFor, h]

/-- Witness for C6: two different passwords of equal score produce
the same log line. -/
theorem log_password_free_witness :
    score_password "Aa1!bcde".toList = score_password "Zz9@wxyz".toList ∧
    logLineFor "T" 1 "Aa1!bcde".toList = logLineFor "T" 1 "Zz9@wxyz".toList :=
  ⟨by decide,
    log_password_free.2 "T" 1 "Aa1!bcde".toList "Zz9@wxyz".toList (by decide)⟩

/-- C7: a blank (whitespace-only) password is silently skipped: the
session continues on the remaining input with the same attempt
counter, producing no events — no attempt counted, nothing scored,
nothing logged. -/
theorem blank_input_skipped (p : Str) (attempts : Nat) (rest : List Str)
    (h : isBlank p = true) :
    sessionV2 .pw attempts (p :: rest) = sessionV2 .pw attempts rest := by
  simp [sessionV2, h]

/-- Witness for C7 at a concrete whitespace-only input. -/
theorem blank_input_skipped_witness :
    isBlank "   ".toList = true ∧
    sessionV2 .pw 0 ["   ".toList] = sessionV2 .pw 0 [] :=
  ⟨by decide, blank_input_skipped "   ".toList 0 [] (by decide)⟩

/-- C8: after a failing attempt the session is in the retry state:
a "no" answer appends exactly one log entry recording the failing
attempt's count, score and rating and ends the session; a "yes"
answer resumes the password loop without logging; an invalid answer
re-prompts; and in general the retry state behaves as `ask_yes_no`
followed by the two branches. -/
theorem retry_flow (score attempts : Nat) (rating : String) (a : Str)
    (rest inputs : List Str) :
    (isNoAns a = true →
      sessionV2 (.retry score rating) attempts (a :: rest) =
        ([.logged attempts score rating], .declined, rest)) ∧
    (isYesAns a = true →
      sessionV2 (.retry score rating) attempts (a :: rest) =
        sessionV2 .pw attempts rest) ∧
    (isYesAns a = false → isNoAns a = false →
      sessionV2 (.retry score rating) attempts (a :: rest) =
        sessionV2 (.retry score rating) attempts rest) ∧
    sessionV2 (.retry score rating) attempts inputs =
      (match askYesNo inputs with
       | none => ([], .outOfInput, [])
       | some (true, r) => sessionV2 .pw attempts r
       | some (false, r) => ([.logged attempts score rating], .declined, r)) := by
  refine ⟨fun hn => ?_, fun hy => ?_, fun hy hn => ?_, ?_⟩
  · simp [sessionV2, isNoAns_not_yes a hn, hn]
  · simp [sessionV2, hy]
  · simp [sessionV2, hy, hn]
  · induction inputs with
    | nil => simp [sessionV2, askYesNo]
    | cons x xs ih =>
      by_cases hy : isYesAns x = true
      · simp [sessionV2, askYesNo, hy]
      · by_cases hn : isNoAns x = true
        · simp [sessionV2, askYesNo, hy, hn]
        · simp [sessionV2, askYesNo, hy, hn, ih]

/-- Witness for C8 at the concrete answers "n", "y" and the invalid "x". -/
theorem retry_flow_witness :
    sessionV2 (.retry 2 "Weak") 1 [['n']] =
      ([.logged 1 2 "Weak"], .declined, []) ∧
    sessionV2 (.retry 2 "Weak") 1 [['y']] = sessionV2 .pw 1 [] ∧
    sessionV2 (.retry 2 "Weak") 1 [['x']] = sessionV2 (.retry 2 "Weak") 1 [] :=
  ⟨(retry_flow 2 1 "Weak" ['n'] [] []).1 (by decide),
   (retry_flow 2 1 "Weak" ['y'] [] []).2.1 (by decide),
   (retry_flow 2 1 "Weak" ['x'] [] []).2.2.1 (by decide) (by decide)⟩

/-- C9: `ask_yes_no` returns `some (b, rest)` exactly when the input
stream splits into a prefix of invalid answers (every one re-prompted),
followed by the first valid answer, with `b` true exactly when that
answer normalises to "y"/"yes" (and so false exactly on "n"/"no"). -/
theorem askYesNo_first_valid (inputs : List Str) (b : Bool) (rest : List Str) :
    askYesNo inputs = some (b, rest) ↔
      ∃ pre a, inputs = pre ++ a :: rest ∧
        (∀ x ∈ pre, isYesAns x = false ∧ isNoAns x = false) ∧
        (isYesAns a = true ∨ isNoAns a = true) ∧ b = isYesAns a := by
  induction inputs with
  | nil =>
    simp only [askYesNo]
    constructor
    · intro h; cases h
    · rintro ⟨pre, a, hsplit, -, -, -⟩
      cases pre <;> cases hsplit
  | cons x xs ih =>
    by_cases hy : isYesAns x = true
    · simp only [askYesNo, hy, if_true]
      constructor
      · intro h
        obtain ⟨hb, hr⟩ : true = b ∧ xs = rest := by
          injection h with h'; exact ⟨congrArg Prod.fst h', congrArg Prod.snd h'⟩
        exact ⟨[], x, by simp [hr], by simp, Or.inl hy, by rw [← hb, hy]⟩
      · rintro ⟨pre, a, hsplit, hpre, hval, hb⟩
        cases pre with
        | nil =>
          simp only [List.nil_append, List.cons.injEq] at hsplit
          obtain ⟨hax, hxs⟩ := hsplit
          rw [hb, ← hax, hy, hxs]
        | cons q pre' =>
          simp only [List.cons_append, List.cons.injEq] at hsplit
          obtain ⟨hqx, -⟩ := hsplit
          rw [hqx] at hy
          rw [(hpre q (by simp)).1] at hy
          cases hy
    · by_cases hn : isNoAns x = true
      · simp only [askYesNo, hy, hn, if_false, if_true, Bool.false_eq_true]
        constructor
        · intro h
          obtain ⟨hb, hr⟩ : false = b ∧ xs = rest := by
            injection h with h'; exact ⟨congrArg Prod.fst h', congrArg Prod.snd h'⟩
          refine ⟨[], x, by simp [hr], by simp, Or.inr hn, ?_⟩
          rw [← hb]
          cases hyx : isYesAns x with
          | false => rfl
          | true => rw [hyx] at hy; cases hy rfl
        · rintro ⟨pre, a, hsplit, hpre, hval, hb⟩
          cases pre with
          | nil =>
            simp only [List.nil_append, List.cons.injEq] at hsplit
            obtain ⟨hax, hxs⟩ := hsplit
            rw [hb, ← hax, hxs]
            cases hyx : isYesAns x with
            | false => rfl
            | true => rw [hyx] at hy; cases hy rfl
          | cons q pre' =>
            simp only [List.cons_append, List.cons.injEq] at hsplit
            obtain ⟨hqx, -⟩ := hsplit
            rw [hqx] at hn
            rw [(hpre q (by simp)).2] at hn
            cases hn
      · have hyf : isYesAns x = false := by
          cases hyx : isYesAns x with
          | false => rfl
          | true => exact absurd hyx hy
        have hnf : isNoAns x = false := by
          cases hnx : isNoAns x with
          | false => rfl
          | true => exact absurd hnx hn
        simp only [askYesNo, hyf, hnf, Bool.false_eq_true, if_false]
        rw [ih]
        constructor
        · rintro ⟨pre, a, hsplit, hpre, hval, hb⟩
          refine ⟨x :: pre, a, by simp [hsplit], ?_, hval, hb⟩
          intro z hz
          rcases List.mem_cons.1 hz with hz | hz
          · rw [hz]; exact ⟨hyf, hnf⟩
          · exact hpre z hz
        · rintro ⟨pre, a, hsplit, hpre, hval, hb⟩
          cases pre with
          | nil =>
            simp only [List.nil_append, List.cons.injEq] at hsplit
            obtain ⟨hax, -⟩ := hsplit
            rcases hval with hv | hv
            · rw [← hax] at hv; rw [hv] at hyf; cases hyf
            · rw [← hax] at hv; rw [hv] at hnf; cases hnf
          | cons q pre' =>
            simp only [List.cons_append, List.cons.injEq] at hsplit
            obtain ⟨-, hxs⟩ := hsplit
            exact ⟨pre', a, hxs, fun z hz => hpre z (by simp [hz]), hval, hb⟩

/-- C5 (counterexample): the two script versions do not have the same
full-program observable behaviour.  On the input sequence
`["Aa1!bcde", "y", "Aa1!bcde", "n"]` v1.0 checks one password, logs
once and terminates, while v2.0's outer loop takes "y" as "check
another password" and runs a second session, logging twice. -/
theorem progV1_progV2_differ :
    progV1 ["Aa1!bcde".toList, "y".toList, "Aa1!bcde".toList, "n".toList] ≠
    progV2 ["Aa1!bcde".toList, "y".toList, "Aa1!bcde".toList, "n".toList] := by
  decide

/-- C5 (amended): within a single password-check session the two
versions agree exactly — from corresponding states (v1.0's retry
state carries the score, v2.0's additionally the derived rating) and
any input stream, both produce the same events, outcome and leftover
input.  They differ only in what happens after a session: v1.0
terminates, v2.0 may start another session. -/
theorem sessions_v1_v2_equal (inputs : List Str) :
    (∀ attempts, sessionV1 .pw attempts inputs = sessionV2 .pw attempts inputs) ∧
    (∀ attempts score, sessionV1 (.retry score) attempts inputs =
      sessionV2 (.retry score (rating_from_score score)) attempts inputs) := by
  induction inputs with
  | nil => exact ⟨fun _ => rfl, fun _ _ => rfl⟩
  | cons x xs ih =>
    have e2 : ratingDisplayV1 (score_password x) =
        rating_from_score (score_password x) :=
      ratingDisplayV1_eq _ (score_password_le x)
    have e3 : ratingLogV1 (score_password x) =
        rating_from_score (score_password x) := ratingLogV1_eq _
    refine ⟨fun attempts => ?_, fun attempts score => ?_⟩
    · by_cases hb : isBlank x = true
      · simp only [sessionV1, sessionV2, hb, if_true]
        exact ih.1 attempts
      · cases hfu : firstUnmet x with
        | none =>
          simp [sessionV1, sessionV2, hb, hfu, scoreV1_eq, e2, e3]
        | some r =>
          simp only [sessionV1, sessionV2, hb, hfu, Bool.false_eq_true, if_false,
            scoreV1_eq, e2]
          rw [ih.2 (attempts + 1) (score_password x)]
    · by_cases hy : isYesAns x = true
      · simp only [sessionV1, sessionV2, hy, if_true]
        exact ih.1 attempts
      · by_cases hn : isNoAns x = true
        · simp [sessionV1, sessionV2, hy, hn, e3, ratingLogV1_eq]
        · simp only [sessionV1, sessionV2, hy, hn, Bool.false_eq_true, if_false]
          exact ih.2 attempts score

end PasswordChecker
